import Mathlib

/-!
Verification of the lightspeed-evaluation repository's core evaluation logic.

The development shallowly embeds three parts of the code base:

* `AgentEval` — the `agent_eval` package:
  `core/agent_goal_eval/evaluator.py` (`EvaluationRunner`),
  `core/agent_goal_eval/script_runner.py` (`ScriptRunner.run_script`),
  `core/utils/judge.py` (`JudgeModelManager.evaluate_response`) and
  `core/utils/constants.py`.
  External effects (subprocess runs, the agent HTTP call, the judge LLM
  call) are modelled by oracle fields of a `Runner` record; a Python
  exception is an `Except.error` carrying the message.

* `LscAgentEval` — the `lsc_agent_eval` package's
  `core/agent_goal_eval/models.py`: the pydantic validators of
  `EvaluationResult` and the aggregation `_calculate_stats_by_category`.
  Python floats are modelled by exact rationals; `round(x, 2)` by
  ties-to-even rounding at two decimals.

* `LightspeedEval` — `lightspeed_evaluation/pipeline/evaluation/evaluator.py`:
  `MetricsEvaluator._determine_status`.
-/

namespace AgentEval

/-- `EvaluationDataConfig` from `agent_eval/core/agent_goal_eval/models.py`
(a plain dataclass, no validation). -/
structure EvaluationDataConfig where
  eval_id : String
  eval_query : String
  eval_type : String := "judge-llm"
  expected_response : Option String := none
  expected_key_words : Option (List String) := none
  eval_setup_script : Option String := none
  eval_verify_script : Option String := none
  eval_cleanup_script : Option String := none

/-- `EvaluationResult` from `agent_eval/core/agent_goal_eval/models.py`
(a plain dataclass, no validation). -/
structure EvaluationResult where
  eval_id : String
  query : String
  response : String
  eval_type : String
  result : String
  error : Option String := none
deriving DecidableEq, Repr

/-- Python whitespace characters removed by `str.strip()`. -/
def isPyWhitespace (c : Char) : Bool :=
  c = ' ' || c = '\t' || c = '\n' || c = '\r' || c = '\x0B' || c = '\x0C'

/-- Python `str.strip()`: drop leading and trailing whitespace. -/
def pyStrip (s : String) : String :=
  ⟨((s.data.dropWhile isPyWhitespace).reverse.dropWhile isPyWhitespace).reverse⟩

/-- Python `str.lower()`: lower-case every character (ASCII model). -/
def pyLower (s : String) : String :=
  ⟨s.data.map Char.toLower⟩

/-- A regex word character (`\w` over ASCII): letter, digit or underscore. -/
def isWordChar (c : Char) : Bool :=
  c.isAlphanum || c = '_'

/-- The values (in order of occurrence) of every `0`/`1` character of the
text that stands at a word boundary on both sides — the matches of the
regex `\b[01]\b` used by `EvaluationRunner._extract_numeric_result`.
`prev` is the character just before the current position (`none` at the
start of the text). -/
def standaloneBits (prev : Option Char) : List Char → List Nat
  | [] => []
  | c :: rest =>
    let leftB := match prev with
      | none => true
      | some p => !isWordChar p
    let rightB := match rest with
      | [] => true
      | d :: _ => !isWordChar d
    let here := if (c = '0' || c = '1') && leftB && rightB then
        [if c = '1' then (1 : Nat) else 0]
      else []
    here ++ standaloneBits (some c) rest

/-- All standalone `0`/`1` tokens of a string, in order (`re.findall` of
`\b[01]\b`, each match converted with `int`). -/
def findBinaryTokens (s : String) : List Nat :=
  standaloneBits none s.data

/-- `EvaluationRunner._extract_numeric_result`: strip the judge response,
try an exact match on "1" / "0", else take the first standalone `0`/`1`
token, else default to `0` (fail-closed). -/
def extract_numeric_result (response : String) : Nat :=
  let r := pyStrip response
  if r = "1" then 1
  else if r = "0" then 0
  else
    match findBinaryTokens r with
    | n :: _ => n
    | [] => 0

end AgentEval

namespace AgentEval

/-- `MAX_RETRY_ATTEMPTS` from `agent_eval/core/utils/constants.py`. -/
def MAX_RETRY_ATTEMPTS : Nat := 3

/-- `TIME_TO_BREATH` from `agent_eval/core/utils/constants.py`
(seconds slept between retries). -/
def TIME_TO_BREATH : Nat := 2

/-- Observable behaviour of one `JudgeModelManager.evaluate_response`
call: the returned value (or the raised `JudgeModelError` message),
how many `litellm.completion` attempts were made, and the durations
(in seconds) of the sleeps between consecutive attempts, in order. -/
structure RetryTrace where
  result : Except String (Option String)
  attempts : Nat
  sleeps : List Nat
deriving Repr

/-- The retry loop of `JudgeModelManager.evaluate_response`, starting at
attempt index `i` with `remaining` loop iterations left. `oracle j` is
the outcome of the `(j+1)`-th `litellm.completion` call (`Except.error`
models a raised exception); a successful response's content is stripped.
When the final remaining attempt fails, a terminal `JudgeModelError` is
raised; otherwise the loop sleeps `TIME_TO_BREATH` seconds and retries. -/
def retryFrom (oracle : Nat → Except String String) (i : Nat) :
    Nat → RetryTrace
  | 0 => { result := .ok none, attempts := 0, sleeps := [] }
  | remaining + 1 =>
    match oracle i with
    | .ok content =>
      { result := .ok (some (pyStrip content)), attempts := 1, sleeps := [] }
    | .error e =>
      if remaining = 0 then
        { result := .error ("Judge model evaluation failed after "
            ++ toString MAX_RETRY_ATTEMPTS ++ " attempts: " ++ e),
          attempts := 1, sleeps := [] }
      else
        let t := retryFrom oracle (i + 1) remaining
        { result := t.result, attempts := t.attempts + 1,
          sleeps := TIME_TO_BREATH :: t.sleeps }

/-- `JudgeModelManager.evaluate_response` from
`agent_eval/core/utils/judge.py`, as a trace over the attempt oracle. -/
def judgeEvaluateResponse (oracle : Nat → Except String String) : RetryTrace :=
  retryFrom oracle 0 MAX_RETRY_ATTEMPTS

/-- Whether an `Except` value models a non-raising call. -/
def isOkE {α β : Type} : Except α β → Bool
  | .ok _ => true
  | .error _ => false

end AgentEval

namespace LscAgentEval

/-- `VALID_EVAL_TYPES` from `lsc_agent_eval/core/agent_goal_eval/models.py`. -/
def VALID_EVAL_TYPES : List String := ["judge-llm", "script", "sub-string"]

/-- `VALID_EVAL_RESULTS` from `lsc_agent_eval/core/agent_goal_eval/models.py`. -/
def VALID_EVAL_RESULTS : List String := ["PASS", "FAIL", "ERROR"]

/-- `_validate_eval_type`: accept only the three known evaluation types. -/
def validateEvalType (eval_type : String) : Except String String :=
  if eval_type ∈ VALID_EVAL_TYPES then .ok eval_type
  else .error ("eval_type must be one of " ++ toString VALID_EVAL_TYPES
    ++ ", got " ++ eval_type)

/-- `EvaluationResult.validate_result`: accept only PASS, FAIL, ERROR. -/
def validateResult (v : String) : Except String String :=
  if v ∈ VALID_EVAL_RESULTS then .ok v
  else .error ("Result must be one of " ++ toString VALID_EVAL_RESULTS
    ++ ", got " ++ v)

/-- `EvaluationResult` from `lsc_agent_eval/core/agent_goal_eval/models.py`
(a pydantic model — only validated construction is exposed below). -/
structure EvaluationResult where
  eval_id : String
  query : String
  response : String
  eval_type : String
  result : String
  conversation_group : Option String := none
  conversation_uuid : Option String := none
  error : Option String := none
deriving DecidableEq, Repr

/-- Validated construction of `EvaluationResult`: pydantic checks the
declared field constraints in field order — `eval_id` and `query` have
`min_length=1`, `eval_type` runs `_validate_eval_type`, `result` runs
`validate_result`; the remaining fields are unconstrained. -/
def mkEvaluationResult (eval_id query response eval_type result : String)
    (conversation_group conversation_uuid error : Option String) :
    Except String EvaluationResult :=
  if eval_id.length < 1 then
    .error "eval_id: String should have at least 1 character"
  else if query.length < 1 then
    .error "query: String should have at least 1 character"
  else
    match validateEvalType eval_type with
    | .error e => .error e
    | .ok t =>
      match validateResult result with
      | .error e => .error e
      | .ok v =>
        .ok { eval_id := eval_id, query := query, response := response,
              eval_type := t, result := v,
              conversation_group := conversation_group,
              conversation_uuid := conversation_uuid, error := error }

/-- Per-category counters built by the first loop of
`_calculate_stats_by_category`. -/
structure CatCounts where
  passed : Nat
  failed : Nat
  errored : Nat
deriving DecidableEq, Repr

/-- The all-zero counters a fresh category starts from. -/
def zeroCounts : CatCounts := { passed := 0, failed := 0, errored := 0 }

/-- One result's contribution: increment the counter matching its
`result` field (a value outside PASS/FAIL/ERROR increments nothing). -/
def bumpCounts (n : CatCounts) (res : String) : CatCounts :=
  if res = "PASS" then { n with passed := n.passed + 1 }
  else if res = "FAIL" then { n with failed := n.failed + 1 }
  else if res = "ERROR" then { n with errored := n.errored + 1 }
  else n

/-- Componentwise sum of counters. -/
def addCounts (a b : CatCounts) : CatCounts :=
  { passed := a.passed + b.passed, failed := a.failed + b.failed,
    errored := a.errored + b.errored }

/-- Update the ordered association list of categories: bump the entry of
`cat`, inserting a fresh zero entry first when absent (dict semantics of
the loop body). -/
def updateCat : List (String × CatCounts) → String → String →
    List (String × CatCounts)
  | [], cat, res => [(cat, bumpCounts zeroCounts res)]
  | (c, n) :: rest, cat, res =>
    if c = cat then (c, bumpCounts n res) :: rest
    else (c, n) :: updateCat rest cat res

/-- The first loop of `_calculate_stats_by_category`: tally every result
into its category, keyed by `key_extractor`. -/
def tallyResults (key : EvaluationResult → String)
    (results : List EvaluationResult) : List (String × CatCounts) :=
  results.foldl (fun acc r => updateCat acc (key r) r.result) []

/-- Round a rational to the nearest integer, ties to even — the semantics
of Python's builtin `round` on exact values. -/
def roundTiesEven (q : ℚ) : ℤ :=
  let f := ⌊q⌋
  if q - f < 1 / 2 then f
  else if q - f > 1 / 2 then f + 1
  else if f % 2 = 0 then f else f + 1

/-- Python's `round(x, 2)` on exact values: round to two decimals. -/
def pyRound2 (q : ℚ) : ℚ :=
  (roundTiesEven (q * 100) : ℚ) / 100

/-- The final per-category statistics record of
`_calculate_stats_by_category`. -/
structure CatStats where
  passed : Nat
  failed : Nat
  errored : Nat
  total : Nat
  success_rate : ℚ
deriving DecidableEq, Repr

/-- The second loop of `_calculate_stats_by_category`: add `total` and
`success_rate` (`round(passed/total*100, 2)`, or `0.0` when the total
is zero). -/
def finalizeStats (n : CatCounts) : CatStats :=
  let total := n.passed + n.failed + n.errored
  { passed := n.passed, failed := n.failed, errored := n.errored,
    total := total,
    success_rate :=
      if total > 0 then pyRound2 ((n.passed : ℚ) / (total : ℚ) * 100) else 0 }

/-- `_calculate_stats_by_category` from
`lsc_agent_eval/core/agent_goal_eval/models.py`: tally results per
category, then derive totals and success rates. -/
def calculateStatsByCategory (key : EvaluationResult → String)
    (results : List EvaluationResult) : List (String × CatStats) :=
  (tallyResults key results).map fun pr => (pr.fst, finalizeStats pr.snd)

/-- Lookup in the ordered association list of categories. -/
def lookupCat : List (String × CatCounts) → String → Option CatCounts
  | [], _ => none
  | (c, n) :: rest, cat => if c = cat then some n else lookupCat rest cat

/-- The counters contributed by a single result. -/
def unitCounts (res : String) : CatCounts := bumpCounts zeroCounts res

/-- Reference tally of one category: sum of the unit contributions of
the results whose key is `cat`. -/
def catTally (key : EvaluationResult → String) (cat : String) :
    List EvaluationResult → CatCounts
  | [] => zeroCounts
  | r :: rs =>
    if key r = cat then addCounts (unitCounts r.result) (catTally key cat rs)
    else catTally key cat rs

end LscAgentEval

namespace LightspeedEval

/-- `MetricsEvaluator._determine_status` from
`lightspeed_evaluation/pipeline/evaluation/evaluator.py`: default the
threshold to 0.5 when none is configured, then PASS iff the score
reaches it. Scores and thresholds are modelled as exact rationals. -/
def determineStatus (score : ℚ) (threshold : Option ℚ) : String :=
  let t : ℚ :=
    match threshold with
    | none => 1 / 2
    | some t => t
  if score ≥ t then "PASS" else "FAIL"

end LightspeedEval

namespace AgentEval

/-- Outcome of one `subprocess.run` call: `returncode` plus captured
output, as in `subprocess.CompletedProcess`. -/
structure ProcResult where
  returncode : Int
  stdout : String
  stderr : String
deriving DecidableEq, Repr

/-- What the operating system provides for one `ScriptRunner.run_script`
invocation: whether the script path exists, whether the kubeconfig path
exists (only consulted when a kubeconfig is configured), and the
subprocess outcome (`Except.error` models `subprocess.SubprocessError`
or any other exception inside the `try` block). -/
structure ScriptCall where
  scriptExists : Bool
  kubeconfigExists : Bool
  exec : Except String ProcResult

/-- The part of `ScriptRunner.run_script` after the existence checks:
run the subprocess, wrapping executor exceptions, and raise
`ScriptExecutionError` on a nonzero exit code when `check_return_code`. -/
def runScriptExec (call : ScriptCall) (script_file : String)
    (check_return_code : Bool) : Except String ProcResult :=
  match call.exec with
  | .error e => .error ("Error running script " ++ script_file ++ ": " ++ e)
  | .ok result =>
    if check_return_code && !(result.returncode = 0) then
      .error ("Script failed with return code " ++ toString result.returncode
        ++ ": " ++ result.stderr)
    else
      .ok result

/-- `ScriptRunner.run_script` from
`agent_eval/core/agent_goal_eval/script_runner.py`: raise when the script
path is missing; when a kubeconfig is configured, raise if its path is
missing; otherwise run the subprocess and check the return code.
An `Except.error` is a raised `ScriptExecutionError`. -/
def run_script (call : ScriptCall) (script_file : String)
    (check_return_code : Bool := true) (kubeconfig_file : Option String := none) :
    Except String ProcResult :=
  if call.scriptExists = false then
    .error ("Script not found: " ++ script_file)
  else
    match kubeconfig_file with
    | some kc =>
      if call.kubeconfigExists then
        runScriptExec call script_file check_return_code
      else
        .error ("Kubeconfig file not found: " ++ kc)
    | none => runScriptExec call script_file check_return_code

/-- Modelled from the spec: `agent_eval/core/utils/prompt.py`
(`ANSWER_CORRECTNESS_PROMPT`) is not under src/; the spec only says the
judge-llm strategy "formats a fixed correctness-judgment prompt from
(query, expected_response, agentResponse)". No claim depends on the
template's wording, only on the three fields being combined. -/
def answerCorrectnessPromptFormat (question answer response : String) : String :=
  "Question: " ++ question ++ "\nExpected answer: " ++ answer
    ++ "\nActual answer: " ++ response

/-- Oracle environment for one `EvaluationRunner.run_evaluation` call.
`judge` is `none` when no `JudgeModelManager` was configured; otherwise
it maps the formatted prompt to the outcome of
`JudgeModelManager.evaluate_response` (an exception, or an optional
text). `agent` is the outcome of `AgentHttpClient.query_agent`.
The three `ScriptCall` fields are the operating-system behaviour at the
setup, verify and cleanup invocation sites. -/
structure Runner where
  judge : Option (String → Except String (Option String))
  agent : Except String String
  setupCall : ScriptCall
  verifyCall : ScriptCall
  cleanupCall : ScriptCall
  kubeconfig : Option String := none

/-- `EvaluationRunner._evaluate_script`: run the verify script without
return-code checking; PASS (true) iff exit code 0; a raised
`ScriptExecutionError` is caught and yields false. A missing
`eval_verify_script` (`Path(None)`) raises a `TypeError` that the
strategy does not catch, modelled as `Except.error`. -/
def evaluate_script (r : Runner) (cfg : EvaluationDataConfig) :
    Except String Bool :=
  match cfg.eval_verify_script with
  | none => .error "argument should be a str or an os.PathLike object, not NoneType"
  | some p =>
    match run_script r.verifyCall p false r.kubeconfig with
    | .error _ => .ok false
    | .ok result => .ok (result.returncode = 0)

/-- `pat` is a prefix of `s` (character lists). -/
def isPrefixB : List Char → List Char → Bool
  | [], _ => true
  | _ :: _, [] => false
  | a :: as, b :: bs => a = b && isPrefixB as bs

/-- `pat` occurs as a contiguous substring of `s` (character lists);
the empty pattern occurs in every string, as with Python's `in`. -/
def containsB (pat : List Char) : List Char → Bool
  | [] => isPrefixB pat []
  | c :: rest => isPrefixB pat (c :: rest) || containsB pat rest

/-- Python's `pat in s` on strings: substring containment. -/
def strContainsPy (s pat : String) : Bool :=
  containsB pat.data s.data

/-- `EvaluationRunner._evaluate_substring`: false when the keyword list is
absent or empty; otherwise true iff any keyword occurs (lower-cased) in
the lower-cased response. -/
def evaluate_substring (cfg : EvaluationDataConfig) (response : String) : Bool :=
  match cfg.expected_key_words with
  | none => false
  | some kws =>
    if kws.isEmpty then false
    else
      let response_lower := pyLower response
      kws.any fun kw => strContainsPy response_lower (pyLower kw)

/-- `EvaluationRunner._evaluate_judge_llm`: false when no judge manager is
configured, or when `expected_response` is missing/empty; otherwise send
the formatted prompt to the judge, absorb any exception into false, and
return whether the extracted numeric verdict is 1. -/
def evaluate_judge_llm (r : Runner) (cfg : EvaluationDataConfig)
    (response : String) : Bool :=
  match r.judge with
  | none => false
  | some judgeFn =>
    match cfg.expected_response with
    | none => false
    | some expected =>
      if expected = "" then false
      else
        let prompt := answerCorrectnessPromptFormat cfg.eval_query expected response
        match judgeFn prompt with
        | .error _ => false
        | .ok none => false
        | .ok (some judge_resp) => extract_numeric_result judge_resp = 1

/-- `EvaluationRunner._evaluate_response`: dispatch on `eval_type`;
unknown types yield false. An `Except.error` is an exception escaping
the strategy (only possible for the script strategy's `TypeError`). -/
def evaluate_response (r : Runner) (cfg : EvaluationDataConfig)
    (response : String) : Except String Bool :=
  if cfg.eval_type = "script" then evaluate_script r cfg
  else if cfg.eval_type = "sub-string" then .ok (evaluate_substring cfg response)
  else if cfg.eval_type = "judge-llm" then .ok (evaluate_judge_llm r cfg response)
  else .ok false

/-- Observable outcome of `EvaluationRunner.run_evaluation`: the produced
result, whether `AgentHttpClient.query_agent` was invoked, and the
cleanup failure that was logged (if any). -/
structure RunOutcome where
  result : EvaluationResult
  agentQueried : Bool
  cleanupFailure : Option String
deriving Repr

/-- The part of `run_evaluation` after the setup script: query the agent,
dispatch to the strategy, run the cleanup script (failure logged only),
and build the result; the outer `except` turns any escaped exception
into a result with verdict "FAILED". -/
def runAfterSetup (r : Runner) (cfg : EvaluationDataConfig) : RunOutcome :=
  match r.agent with
  | .error e =>
    { result := { eval_id := cfg.eval_id, query := cfg.eval_query, response := "",
                  eval_type := cfg.eval_type, result := "FAILED", error := some e },
      agentQueried := true, cleanupFailure := none }
  | .ok response =>
    match evaluate_response r cfg response with
    | .error e =>
      { result := { eval_id := cfg.eval_id, query := cfg.eval_query, response := "",
                    eval_type := cfg.eval_type, result := "FAILED", error := some e },
        agentQueried := true, cleanupFailure := none }
    | .ok success =>
      let cleanupFailure :=
        match cfg.eval_cleanup_script with
        | some c =>
          match run_script r.cleanupCall c true r.kubeconfig with
          | .error e => some e
          | .ok _ => none
        | none => none
      { result := { eval_id := cfg.eval_id, query := cfg.eval_query,
                    response := response, eval_type := cfg.eval_type,
                    result := if success then "PASS" else "FAIL", error := none },
        agentQueried := true, cleanupFailure := cleanupFailure }

/-- `EvaluationRunner.run_evaluation` from
`agent_eval/core/agent_goal_eval/evaluator.py`: run the setup script if
configured — on `ScriptExecutionError` return a "FAILED" result without
querying the agent — then continue with `runAfterSetup`. -/
def run_evaluation (r : Runner) (cfg : EvaluationDataConfig) : RunOutcome :=
  match cfg.eval_setup_script with
  | some s =>
    match run_script r.setupCall s true r.kubeconfig with
    | .error e =>
      { result := { eval_id := cfg.eval_id, query := cfg.eval_query, response := "",
                    eval_type := cfg.eval_type, result := "FAILED",
                    error := some ("Setup script failed: " ++ e) },
        agentQueried := false, cleanupFailure := none }
    | .ok _ => runAfterSetup r cfg
  | none => runAfterSetup r cfg

end AgentEval

namespace AgentEval

/-- A successful subprocess outcome (exit code 0, no output). -/
def procOk : ProcResult := { returncode := 0, stdout := "", stderr := "" }

/-- A failing subprocess outcome (exit code 2). -/
def procFail : ProcResult := { returncode := 2, stdout := "", stderr := "oops" }

/-- A script invocation site where everything succeeds. -/
def callOk : ScriptCall :=
  { scriptExists := true, kubeconfigExists := true, exec := .ok procOk }

/-- A script invocation site whose script file is missing. -/
def callMissing : ScriptCall :=
  { scriptExists := false, kubeconfigExists := true, exec := .ok procOk }

/-- A script invocation site whose subprocess raises. -/
def callExecFail : ScriptCall :=
  { scriptExists := true, kubeconfigExists := true, exec := .error "exec failed" }

/-- A script invocation site whose script exits nonzero. -/
def callNonzero : ScriptCall :=
  { scriptExists := true, kubeconfigExists := true, exec := .ok procFail }

end AgentEval

/-! ## Theorems -/

namespace LightspeedEval

/-- C9: for every score and threshold configuration,
`MetricsEvaluator._determine_status` yields PASS if and only if the score
is at least the threshold, otherwise FAIL; a missing threshold behaves
exactly like a configured threshold of 0.5. -/
theorem determineStatus_spec (score : ℚ) (th : Option ℚ) :
    (determineStatus score th = "PASS" ↔ score ≥ th.getD (1 / 2)) ∧
    (determineStatus score th = "FAIL" ↔ ¬ score ≥ th.getD (1 / 2)) ∧
    determineStatus score none = determineStatus score (some (1 / 2)) := by
  refine ⟨?_, ?_, rfl⟩ <;>
    cases th <;>
      simp only [determineStatus, Option.getD_none, Option.getD_some] <;>
        split <;> simp_all

end LightspeedEval

namespace LscAgentEval

/-- Characterization of successful validated construction. -/
theorem mkEvaluationResult_ok_iff (i q resp t res : String)
    (cg cu er : Option String) (r : EvaluationResult) :
    mkEvaluationResult i q resp t res cg cu er = .ok r ↔
      ¬ i.length < 1 ∧ ¬ q.length < 1 ∧ t ∈ VALID_EVAL_TYPES ∧
      res ∈ VALID_EVAL_RESULTS ∧
      r = { eval_id := i, query := q, response := resp, eval_type := t,
            result := res, conversation_group := cg,
            conversation_uuid := cu, error := er } := by
  by_cases h1 : i.length < 1 <;> by_cases h2 : q.length < 1 <;>
    by_cases h3 : t ∈ VALID_EVAL_TYPES <;>
      by_cases h4 : res ∈ VALID_EVAL_RESULTS <;>
        simp [mkEvaluationResult, validateEvalType, validateResult,
          h1, h2, h3, h4, eq_comm]

/-- C10: every successfully constructed (validated) `EvaluationResult`
has `result` among PASS/FAIL/ERROR and `eval_type` among
judge-llm/script/sub-string; construction with any other `result` value
— in particular the string "FAILED" — is rejected with a validation
error. -/
theorem evaluationResult_validation_spec (i q resp t res : String)
    (cg cu er : Option String) :
    (∀ r, mkEvaluationResult i q resp t res cg cu er = .ok r →
      r.result ∈ VALID_EVAL_RESULTS ∧ r.eval_type ∈ VALID_EVAL_TYPES) ∧
    (res ∉ VALID_EVAL_RESULTS →
      ∀ r, mkEvaluationResult i q resp t res cg cu er ≠ .ok r) ∧
    (∃ e, mkEvaluationResult i q resp t "FAILED" cg cu er = .error e) := by
  refine ⟨?_, ?_, ?_⟩
  · intro r h
    obtain ⟨-, -, h3, h4, hr⟩ := (mkEvaluationResult_ok_iff i q resp t res cg cu er r).1 h
    subst hr
    exact ⟨h4, h3⟩
  · intro hres r h
    obtain ⟨-, -, -, h4, -⟩ := (mkEvaluationResult_ok_iff i q resp t res cg cu er r).1 h
    exact hres h4
  · cases hmk : mkEvaluationResult i q resp t "FAILED" cg cu er with
    | error e => exact ⟨e, rfl⟩
    | ok r =>
      obtain ⟨-, -, -, h4, -⟩ :=
        (mkEvaluationResult_ok_iff i q resp t "FAILED" cg cu er r).1 hmk
      exact absurd h4 (by decide)

/-- C10 witness: a concretely validated result indeed carries a valid
verdict and evaluation type. -/
theorem evaluationResult_validation_witness :
    ({ eval_id := "e1", query := "q", response := "r",
       eval_type := "judge-llm", result := "PASS" } :
      EvaluationResult).result ∈ VALID_EVAL_RESULTS ∧
    ({ eval_id := "e1", query := "q", response := "r",
       eval_type := "judge-llm", result := "PASS" } :
      EvaluationResult).eval_type ∈ VALID_EVAL_TYPES :=
  (evaluationResult_validation_spec "e1" "q" "r" "judge-llm" "PASS"
    none none none).1 _ (by rfl)

end LscAgentEval

namespace AgentEval

/-- Every value produced by the `\b[01]\b` token scan is 0 or 1. -/
theorem mem_standaloneBits {x : Nat} :
    ∀ (prev : Option Char) (l : List Char),
      x ∈ standaloneBits prev l → x = 0 ∨ x = 1 := by
  intro prev l
  induction l generalizing prev with
  | nil => intro h; simp [standaloneBits] at h
  | cons c rest ih =>
    intro h
    simp only [standaloneBits, List.mem_append] at h
    rcases h with h | h
    · split at h
      · split at h <;> simp_all
      · simp_all
    · exact ih (some c) h

/-- C3: `_extract_numeric_result` proceeds in stages — exact match on the
stripped text "1"/"0" first, else the first standalone `0`/`1` token,
else the fail-closed default 0 — and an input with no standalone `1`
token never yields the passing verdict 1. -/
theorem extract_numeric_result_spec (s : String) :
    (pyStrip s = "1" → extract_numeric_result s = 1) ∧
    (pyStrip s = "0" → extract_numeric_result s = 0) ∧
    (pyStrip s ≠ "1" → pyStrip s ≠ "0" →
      extract_numeric_result s = (findBinaryTokens (pyStrip s)).headD 0) ∧
    (1 ∉ findBinaryTokens (pyStrip s) → extract_numeric_result s = 0) := by
  refine ⟨?_, ?_, ?_, ?_⟩
  · intro h; simp [extract_numeric_result, h]
  · intro h; simp [extract_numeric_result, h]
  · intro h1 h0
    simp only [extract_numeric_result, if_neg h1, if_neg h0]
    cases findBinaryTokens (pyStrip s) <;> simp
  · intro hno
    by_cases h1 : pyStrip s = "1"
    · exact absurd (h1 ▸ (by decide : 1 ∈ findBinaryTokens "1")) hno
    · by_cases h0 : pyStrip s = "0"
      · simp [extract_numeric_result, h0, if_neg h1]
      · simp only [extract_numeric_result, if_neg h1, if_neg h0]
        cases htok : findBinaryTokens (pyStrip s) with
        | nil => rfl
        | cons n rest =>
          have hmem : n ∈ findBinaryTokens (pyStrip s) := by
            rw [htok]; exact List.mem_cons_self _ _
          have h01 := mem_standaloneBits none (pyStrip s).data hmem
          rcases h01 with h | h
          · exact h
          · exact absurd (h ▸ hmem) hno

/-- C3 witness: a malformed judge response with no standalone `1` token
extracts to the failing verdict 0. -/
theorem extract_numeric_result_witness :
    extract_numeric_result "the answer is correct" = 0 :=
  (extract_numeric_result_spec "the answer is correct").2.2.2 (by decide)

end AgentEval

namespace AgentEval

/-- C4: `JudgeModelManager.evaluate_response` makes at most
`MAX_RETRY_ATTEMPTS = 3` attempts, sleeps exactly the fixed
`TIME_TO_BREATH = 2` seconds between consecutive attempts (one sleep per
retry, no backoff growth), raises a terminal `JudgeModelError` after the
final attempt when every attempt fails, and returns the first successful
attempt's (stripped) text, making no further attempts. -/
theorem judge_retry_spec (oracle : Nat → Except String String) :
    (judgeEvaluateResponse oracle).attempts ≤ MAX_RETRY_ATTEMPTS ∧
    (judgeEvaluateResponse oracle).sleeps.length =
      (judgeEvaluateResponse oracle).attempts - 1 ∧
    (∀ d ∈ (judgeEvaluateResponse oracle).sleeps, d = TIME_TO_BREATH) ∧
    (∀ k, k < MAX_RETRY_ATTEMPTS →
      (∀ j, j < k → isOkE (oracle j) = false) →
      ∀ text, oracle k = .ok text →
        (judgeEvaluateResponse oracle).result = .ok (some (pyStrip text)) ∧
        (judgeEvaluateResponse oracle).attempts = k + 1) ∧
    ((∀ j, j < MAX_RETRY_ATTEMPTS → isOkE (oracle j) = false) →
      (∃ e, (judgeEvaluateResponse oracle).result = .error e) ∧
      (judgeEvaluateResponse oracle).attempts = MAX_RETRY_ATTEMPTS) := by
  rcases h0 : oracle 0 with e0 | t0
  · rcases h1 : oracle 1 with e1 | t1
    · rcases h2 : oracle 2 with e2 | t2
      · refine ⟨?_, ?_, ?_, ?_, ?_⟩ <;>
          simp [judgeEvaluateResponse, retryFrom, MAX_RETRY_ATTEMPTS,
            TIME_TO_BREATH, h0, h1, h2]
        intro k hk hprev text htext
        interval_cases k <;> simp_all [isOkE]
      · refine ⟨?_, ?_, ?_, ?_, ?_⟩ <;>
          simp [judgeEvaluateResponse, retryFrom, MAX_RETRY_ATTEMPTS,
            TIME_TO_BREATH, h0, h1, h2]
        · intro k hk hprev text htext
          interval_cases k <;> simp_all [isOkE]
        · exact ⟨2, by norm_num, by simp [h2, isOkE]⟩
    · refine ⟨?_, ?_, ?_, ?_, ?_⟩ <;>
        simp [judgeEvaluateResponse, retryFrom, MAX_RETRY_ATTEMPTS,
          TIME_TO_BREATH, h0, h1]
      · intro k hk hprev text htext
        interval_cases k
        · simp_all [isOkE]
        · simp_all [isOkE]
        · have := hprev 1 (by norm_num)
          simp [h1, isOkE] at this
      · exact ⟨1, by norm_num, by simp [h1, isOkE]⟩
  · refine ⟨?_, ?_, ?_, ?_, ?_⟩ <;>
      simp [judgeEvaluateResponse, retryFrom, MAX_RETRY_ATTEMPTS,
        TIME_TO_BREATH, h0]
    · intro k hk hprev text htext
      interval_cases k
      · simp_all [isOkE]
      · have := hprev 0 (by norm_num)
        simp [h0, isOkE] at this
      · have := hprev 0 (by norm_num)
        simp [h0, isOkE] at this
    · exact ⟨0, by norm_num, by simp [h0, isOkE]⟩

/-- C4 witness: with the first attempt failing and the second returning
" 1 ", the call makes two attempts, sleeps once for 2 seconds, and
returns the stripped text "1". -/
theorem judge_retry_witness :
    (judgeEvaluateResponse
      (fun i => if i = 0 then .error "boom" else .ok " 1 ")).result =
        .ok (some "1") ∧
    (judgeEvaluateResponse
      (fun i => if i = 0 then .error "boom" else .ok " 1 ")).attempts = 2 := by
  have h := (judge_retry_spec
    (fun i => if i = 0 then .error "boom" else .ok " 1 ")).2.2.2.1 1
    (by norm_num [MAX_RETRY_ATTEMPTS])
    (by intro j hj; interval_cases j; simp [isOkE])
    " 1 " (by simp)
  exact ⟨by rw [h.1]; rfl, h.2⟩

end AgentEval

namespace LscAgentEval

/-- Adding the zero counters on the left is the identity. -/
theorem addCounts_zero_left (n : CatCounts) : addCounts zeroCounts n = n := by
  simp [addCounts, zeroCounts]

/-- Adding the zero counters on the right is the identity. -/
theorem addCounts_zero_right (n : CatCounts) : addCounts n zeroCounts = n := by
  simp [addCounts, zeroCounts]

/-- Counter addition is associative. -/
theorem addCounts_assoc (a b c : CatCounts) :
    addCounts (addCounts a b) c = addCounts a (addCounts b c) := by
  simp [addCounts, Nat.add_assoc]

/-- Bumping is adding a unit contribution. -/
theorem bumpCounts_eq_add (n : CatCounts) (res : String) :
    bumpCounts n res = addCounts n (unitCounts res) := by
  by_cases h1 : res = "PASS" <;> by_cases h2 : res = "FAIL" <;>
    by_cases h3 : res = "ERROR" <;>
      simp_all [bumpCounts, unitCounts, zeroCounts, addCounts]

/-- Updating a category makes its lookup the bump of its previous
counters (zero when absent). -/
theorem lookupCat_updateCat_self (l : List (String × CatCounts))
    (cat res : String) :
    lookupCat (updateCat l cat res) cat =
      some (bumpCounts ((lookupCat l cat).getD zeroCounts) res) := by
  induction l with
  | nil => simp [updateCat, lookupCat]
  | cons p rest ih =>
    obtain ⟨c, n⟩ := p
    by_cases h : c = cat
    · subst h; simp [updateCat, lookupCat]
    · simp [updateCat, lookupCat, h, ih]

/-- Updating one category leaves every other category's lookup
unchanged. -/
theorem lookupCat_updateCat_ne (l : List (String × CatCounts))
    (cat res c : String) (h : c ≠ cat) :
    lookupCat (updateCat l cat res) c = lookupCat l c := by
  induction l with
  | nil =>
    simp [updateCat, lookupCat]
    exact Ne.symm h
  | cons p rest ih =>
    obtain ⟨c0, n⟩ := p
    by_cases h0 : c0 = cat
    · subst h0
      simp [updateCat, lookupCat, Ne.symm h]
    · by_cases hc : c0 = c
      · subst hc
        simp [updateCat, lookupCat, h0, h]
      · simp [updateCat, lookupCat, h0, hc, ih]

/-- The tally loop computes, per category, the sum of the unit
contributions of the results keyed to it. -/
theorem tally_fold (key : EvaluationResult → String)
    (rs : List EvaluationResult) :
    ∀ (acc : List (String × CatCounts)) (cat : String),
      (lookupCat (rs.foldl (fun a r => updateCat a (key r) r.result) acc)
          cat).getD zeroCounts =
        addCounts ((lookupCat acc cat).getD zeroCounts)
          (catTally key cat rs) := by
  induction rs with
  | nil => intro acc cat; simp [catTally, addCounts_zero_right]
  | cons r rest ih =>
    intro acc cat
    simp only [List.foldl_cons, catTally]
    rw [ih]
    by_cases h : key r = cat
    · rw [h, lookupCat_updateCat_self, if_pos rfl]
      simp only [Option.getD_some]
      rw [bumpCounts_eq_add, addCounts_assoc]
    · rw [lookupCat_updateCat_ne _ _ _ _ (fun hc => h hc.symm), if_neg h]

end LscAgentEval

namespace LscAgentEval

/-- Keys of an updated association list: unchanged when the category is
already present, otherwise extended by the new category at the end. -/
theorem keys_updateCat (l : List (String × CatCounts)) (cat res : String) :
    (updateCat l cat res).map Prod.fst =
      if cat ∈ l.map Prod.fst then l.map Prod.fst
      else l.map Prod.fst ++ [cat] := by
  induction l with
  | nil => simp [updateCat]
  | cons p rest ih =>
    obtain ⟨c, n⟩ := p
    by_cases h : c = cat
    · subst h; simp [updateCat]
    · simp only [updateCat, if_neg h, List.map_cons, ih]
      by_cases hmem : cat ∈ rest.map Prod.fst <;>
        simp [hmem, Ne.symm h]

/-- Updating preserves distinctness of the category keys. -/
theorem nodup_keys_updateCat (l : List (String × CatCounts)) (cat res : String)
    (h : (l.map Prod.fst).Nodup) :
    ((updateCat l cat res).map Prod.fst).Nodup := by
  rw [keys_updateCat]
  by_cases hmem : cat ∈ l.map Prod.fst
  · simpa [hmem] using h
  · simp only [if_neg hmem]
    simp [List.nodup_append, h, hmem]

/-- The tally's category keys are distinct. -/
theorem nodup_keys_tally (key : EvaluationResult → String)
    (rs : List EvaluationResult) :
    ((tallyResults key rs).map Prod.fst).Nodup := by
  unfold tallyResults
  suffices h : ∀ acc : List (String × CatCounts), (acc.map Prod.fst).Nodup →
      ((rs.foldl (fun a r => updateCat a (key r) r.result) acc).map
        Prod.fst).Nodup by
    exact h [] (by simp)
  induction rs with
  | nil => intro acc hacc; simpa using hacc
  | cons r rest ih =>
    intro acc hacc
    exact ih _ (nodup_keys_updateCat _ _ _ hacc)

/-- In an association list with distinct keys, membership determines
lookup. -/
theorem lookupCat_of_mem (l : List (String × CatCounts)) (cat : String)
    (n : CatCounts) (hmem : (cat, n) ∈ l)
    (hnd : (l.map Prod.fst).Nodup) :
    lookupCat l cat = some n := by
  induction l with
  | nil => simp at hmem
  | cons p rest ih =>
    obtain ⟨c, m⟩ := p
    rcases List.mem_cons.1 hmem with heq | htl
    · obtain ⟨h1, h2⟩ := Prod.mk.injEq .. ▸ heq
      cases heq
      simp [lookupCat]
    · have hne : c ≠ cat := by
        intro hcc
        subst hcc
        have hinkeys : c ∈ rest.map Prod.fst :=
          List.mem_map.2 ⟨(c, n), htl, rfl⟩
        rw [List.map_cons, List.nodup_cons] at hnd
        exact hnd.1 hinkeys
      simp only [lookupCat, if_neg hne]
      rw [List.map_cons, List.nodup_cons] at hnd
      exact ih htl hnd.2

/-- The reference tally coincides with direct predicate counting. -/
theorem catTally_counts (key : EvaluationResult → String) (cat : String)
    (rs : List EvaluationResult) :
    (catTally key cat rs).passed =
      rs.countP (fun r => decide (key r = cat) && decide (r.result = "PASS")) ∧
    (catTally key cat rs).failed =
      rs.countP (fun r => decide (key r = cat) && decide (r.result = "FAIL")) ∧
    (catTally key cat rs).errored =
      rs.countP (fun r => decide (key r = cat) && decide (r.result = "ERROR")) := by
  induction rs with
  | nil => simp [catTally, zeroCounts]
  | cons r rest ih =>
    obtain ⟨ihp, ihf, ihe⟩ := ih
    by_cases hk : key r = cat
    · by_cases h1 : r.result = "PASS" <;> by_cases h2 : r.result = "FAIL" <;>
        by_cases h3 : r.result = "ERROR" <;>
          simp_all [catTally, addCounts, unitCounts, bumpCounts, zeroCounts,
            List.countP_cons, Nat.add_comm]
    · simp_all [catTally, List.countP_cons, hk]

end LscAgentEval

namespace LscAgentEval

/-- C7: for every result list and category key-extractor,
`_calculate_stats_by_category` produces, for each category, the exact
pass/fail/error counts of the results keyed to it, with
`total = passed + failed + errored`, and
`success_rate = round(passed/total*100, 2)` when the total is positive
and `0.0` when the total is zero (no division by zero). -/
theorem calculate_stats_spec (key : EvaluationResult → String)
    (results : List EvaluationResult) (cat : String) (stats : CatStats)
    (hmem : (cat, stats) ∈ calculateStatsByCategory key results) :
    stats.passed = results.countP
      (fun r => decide (key r = cat) && decide (r.result = "PASS")) ∧
    stats.failed = results.countP
      (fun r => decide (key r = cat) && decide (r.result = "FAIL")) ∧
    stats.errored = results.countP
      (fun r => decide (key r = cat) && decide (r.result = "ERROR")) ∧
    stats.total = stats.passed + stats.failed + stats.errored ∧
    (stats.total ≠ 0 → stats.success_rate =
      pyRound2 ((stats.passed : ℚ) / (stats.total : ℚ) * 100)) ∧
    (stats.total = 0 → stats.success_rate = 0) := by
  obtain ⟨pr, hintally, heq⟩ := List.mem_map.1 hmem
  obtain ⟨hc, hstats⟩ := Prod.mk.injEq .. ▸ heq
  subst hstats
  have hpr : pr = (cat, pr.2) := by
    rw [← hc]
  rw [hpr] at hintally
  have hlook : lookupCat (tallyResults key results) cat = some pr.2 :=
    lookupCat_of_mem _ _ _ hintally (nodup_keys_tally key results)
  have hfold := tally_fold key results [] cat
  simp only [lookupCat, Option.getD_none] at hfold
  rw [addCounts_zero_left] at hfold
  unfold tallyResults at hlook
  rw [hlook] at hfold
  simp only [Option.getD_some] at hfold
  rw [hfold]
  obtain ⟨hp, hf, he⟩ := catTally_counts key cat results
  refine ⟨?_, ?_, ?_, ?_, ?_, ?_⟩
  · simpa [finalizeStats] using hp
  · simpa [finalizeStats] using hf
  · simpa [finalizeStats] using he
  · simp [finalizeStats]
  · intro htot
    have hpos : 0 < (catTally key cat results).passed +
        (catTally key cat results).failed +
        (catTally key cat results).errored := by
      simp only [finalizeStats] at htot
      omega
    simp [finalizeStats, hpos]
  · intro htot
    simp only [finalizeStats] at htot ⊢
    simp [htot]

/-- C7 witness: one PASS result in category "script" yields counts
1/0/0, total 1, and the rounded success rate formula applies. -/
theorem calculate_stats_witness :
    (finalizeStats { passed := 1, failed := 0, errored := 0 }).total =
      (finalizeStats { passed := 1, failed := 0, errored := 0 }).passed +
      (finalizeStats { passed := 1, failed := 0, errored := 0 }).failed +
      (finalizeStats { passed := 1, failed := 0, errored := 0 }).errored ∧
    (finalizeStats { passed := 1, failed := 0, errored := 0 }).success_rate =
      pyRound2
        (((finalizeStats { passed := 1, failed := 0, errored := 0 }).passed : ℚ) /
          ((finalizeStats { passed := 1, failed := 0, errored := 0 }).total : ℚ)
            * 100) := by
  have h := calculate_stats_spec (fun r => r.eval_type)
    [{ eval_id := "e1", query := "q", response := "resp",
       eval_type := "script", result := "PASS" }] "script"
    (finalizeStats { passed := 1, failed := 0, errored := 0 })
    (by simp [calculateStatsByCategory, tallyResults, updateCat, bumpCounts,
          zeroCounts])
  exact ⟨h.2.2.2.1, h.2.2.2.2.1 (by decide)⟩

end LscAgentEval

namespace AgentEval

/-- When setup succeeds (or is absent), the agent answers `resp`, and the
strategy dispatch returns verdict `b`, `run_evaluation` produces exactly
the PASS/FAIL result record with no error field. -/
theorem run_evaluation_result_of_ok (r : Runner) (cfg : EvaluationDataConfig)
    (resp : String) (b : Bool)
    (hagent : r.agent = .ok resp)
    (heval : evaluate_response r cfg resp = .ok b)
    (hsetup : ∀ s, cfg.eval_setup_script = some s →
      isOkE (run_script r.setupCall s true r.kubeconfig) = true) :
    (run_evaluation r cfg).result =
      { eval_id := cfg.eval_id, query := cfg.eval_query, response := resp,
        eval_type := cfg.eval_type, result := if b then "PASS" else "FAIL",
        error := none } := by
  have hafter : (runAfterSetup r cfg).result =
      { eval_id := cfg.eval_id, query := cfg.eval_query, response := resp,
        eval_type := cfg.eval_type, result := if b then "PASS" else "FAIL",
        error := none } := by
    simp [runAfterSetup, hagent, heval]
  cases hss : cfg.eval_setup_script with
  | none => simp [run_evaluation, hss, hafter]
  | some s =>
    have hok := hsetup s hss
    cases hrs : run_script r.setupCall s true r.kubeconfig with
    | error e => rw [hrs] at hok; simp [isOkE] at hok
    | ok pr => simp [run_evaluation, hss, hrs, hafter]

/-- C1 (amended): a failing setup script aborts the evaluation with the
errored verdict "FAILED" (the string this package uses for errored
results) and a "Setup script failed" error message, the agent is never
queried, and the verdict is neither "FAIL" nor "PASS". -/
theorem setup_failure_spec (r : Runner) (cfg : EvaluationDataConfig)
    (s e : String)
    (hs : cfg.eval_setup_script = some s)
    (hfail : run_script r.setupCall s true r.kubeconfig = .error e) :
    (run_evaluation r cfg).result.result = "FAILED" ∧
    (run_evaluation r cfg).result.error =
      some ("Setup script failed: " ++ e) ∧
    (run_evaluation r cfg).agentQueried = false ∧
    (run_evaluation r cfg).result.result ≠ "FAIL" ∧
    (run_evaluation r cfg).result.result ≠ "PASS" := by
  refine ⟨?_, ?_, ?_, ?_, ?_⟩ <;> simp [run_evaluation, hs, hfail]

/-- C1 counterexample: with a setup script whose file is missing, the
produced verdict is the string "FAILED", not "ERROR" as the claim
states (and the agent is indeed not queried). -/
theorem setup_failure_counterexample :
    (run_evaluation
      { judge := none, agent := .ok "response", setupCall := callMissing,
        verifyCall := callOk, cleanupCall := callOk }
      { eval_id := "cx1", eval_query := "q", eval_type := "judge-llm",
        expected_response := some "yes",
        eval_setup_script := some "/setup.sh" }).result.result = "FAILED" ∧
    (run_evaluation
      { judge := none, agent := .ok "response", setupCall := callMissing,
        verifyCall := callOk, cleanupCall := callOk }
      { eval_id := "cx1", eval_query := "q", eval_type := "judge-llm",
        expected_response := some "yes",
        eval_setup_script := some "/setup.sh" }).result.result ≠ "ERROR" ∧
    (run_evaluation
      { judge := none, agent := .ok "response", setupCall := callMissing,
        verifyCall := callOk, cleanupCall := callOk }
      { eval_id := "cx1", eval_query := "q", eval_type := "judge-llm",
        expected_response := some "yes",
        eval_setup_script := some "/setup.sh" }).agentQueried = false := by
  decide

/-- C1 witness: the amended statement applied to a concrete failing
setup run. -/
theorem setup_failure_witness :
    (run_evaluation
      { judge := none, agent := .ok "resp", setupCall := callExecFail,
        verifyCall := callOk, cleanupCall := callOk }
      { eval_id := "w1", eval_query := "q", eval_type := "judge-llm",
        expected_response := some "yes",
        eval_setup_script := some "/s.sh" }).result.result = "FAILED" ∧
    (run_evaluation
      { judge := none, agent := .ok "resp", setupCall := callExecFail,
        verifyCall := callOk, cleanupCall := callOk }
      { eval_id := "w1", eval_query := "q", eval_type := "judge-llm",
        expected_response := some "yes",
        eval_setup_script := some "/s.sh" }).agentQueried = false := by
  have h := setup_failure_spec
    { judge := none, agent := .ok "resp", setupCall := callExecFail,
      verifyCall := callOk, cleanupCall := callOk }
    { eval_id := "w1", eval_query := "q", eval_type := "judge-llm",
      expected_response := some "yes",
      eval_setup_script := some "/s.sh" }
    "/s.sh" "Error running script /s.sh: exec failed" rfl rfl
  exact ⟨h.1, h.2.2.1⟩

end AgentEval

namespace AgentEval

/-- C2 (amended): for a judge-llm evaluation with no judge manager
configured, the strategy returns false, so the produced verdict is
"FAIL" with no error field — never "PASS" and never the errored
verdict. -/
theorem judge_missing_spec (r : Runner) (cfg : EvaluationDataConfig)
    (resp : String)
    (hjudge : r.judge = none)
    (htype : cfg.eval_type = "judge-llm")
    (hagent : r.agent = .ok resp)
    (hsetup : ∀ s, cfg.eval_setup_script = some s →
      isOkE (run_script r.setupCall s true r.kubeconfig) = true) :
    (run_evaluation r cfg).result.result = "FAIL" ∧
    (run_evaluation r cfg).result.error = none ∧
    (run_evaluation r cfg).result.result ≠ "PASS" ∧
    (run_evaluation r cfg).result.result ≠ "ERROR" := by
  have heval : evaluate_response r cfg resp = .ok false := by
    simp [evaluate_response, htype, evaluate_judge_llm, hjudge]
  have hrec := run_evaluation_result_of_ok r cfg resp false hagent heval hsetup
  rw [hrec]
  refine ⟨rfl, rfl, ?_, ?_⟩ <;> simp

/-- C2 counterexample: a concrete judge-llm evaluation without a judge
manager yields the verdict "FAIL", not "ERROR" as the claim states. -/
theorem judge_missing_counterexample :
    (run_evaluation
      { judge := none, agent := .ok "some answer", setupCall := callOk,
        verifyCall := callOk, cleanupCall := callOk }
      { eval_id := "cx2", eval_query := "q", eval_type := "judge-llm",
        expected_response := some "expected" }).result.result = "FAIL" ∧
    (run_evaluation
      { judge := none, agent := .ok "some answer", setupCall := callOk,
        verifyCall := callOk, cleanupCall := callOk }
      { eval_id := "cx2", eval_query := "q", eval_type := "judge-llm",
        expected_response := some "expected" }).result.result ≠ "ERROR" := by
  decide

/-- C2 witness: the amended statement applied to a concrete run. -/
theorem judge_missing_witness :
    (run_evaluation
      { judge := none, agent := .ok "another answer", setupCall := callOk,
        verifyCall := callOk, cleanupCall := callOk }
      { eval_id := "w2", eval_query := "q", eval_type := "judge-llm",
        expected_response := some "expected" }).result.result = "FAIL" ∧
    (run_evaluation
      { judge := none, agent := .ok "another answer", setupCall := callOk,
        verifyCall := callOk, cleanupCall := callOk }
      { eval_id := "w2", eval_query := "q", eval_type := "judge-llm",
        expected_response := some "expected" }).result.error = none := by
  have h := judge_missing_spec
    { judge := none, agent := .ok "another answer", setupCall := callOk,
      verifyCall := callOk, cleanupCall := callOk }
    { eval_id := "w2", eval_query := "q", eval_type := "judge-llm",
      expected_response := some "expected" }
    "another answer" rfl rfl rfl
    (by intro s hs; simp at hs)
  exact ⟨h.1, h.2.1⟩

/-- The substring strategy succeeds exactly when some keyword occurs,
lower-cased, in the lower-cased response. -/
theorem evaluate_substring_iff (cfg : EvaluationDataConfig) (resp : String) :
    evaluate_substring cfg resp = true ↔
      ∃ kw, kw ∈ cfg.expected_key_words.getD [] ∧
        strContainsPy (pyLower resp) (pyLower kw) = true := by
  unfold evaluate_substring
  cases h : cfg.expected_key_words with
  | none => simp
  | some kws =>
    cases kws with
    | nil => simp
    | cons k ks => simp [List.any_eq_true]

/-- C5: for a sub-string evaluation, the verdict is "PASS" iff at least
one keyword of `expected_key_words` occurs case-insensitively in the
response; the verdict is always "PASS" or "FAIL"; an absent or empty
keyword list yields "FAIL" — never the errored verdict. -/
theorem substring_eval_spec (r : Runner) (cfg : EvaluationDataConfig)
    (resp : String)
    (htype : cfg.eval_type = "sub-string")
    (hagent : r.agent = .ok resp)
    (hsetup : ∀ s, cfg.eval_setup_script = some s →
      isOkE (run_script r.setupCall s true r.kubeconfig) = true) :
    ((run_evaluation r cfg).result.result = "PASS" ↔
      ∃ kw, kw ∈ cfg.expected_key_words.getD [] ∧
        strContainsPy (pyLower resp) (pyLower kw) = true) ∧
    ((run_evaluation r cfg).result.result = "PASS" ∨
      (run_evaluation r cfg).result.result = "FAIL") ∧
    (cfg.expected_key_words.getD [] = [] →
      (run_evaluation r cfg).result.result = "FAIL") ∧
    (run_evaluation r cfg).result.result ≠ "ERROR" := by
  have heval : evaluate_response r cfg resp =
      .ok (evaluate_substring cfg resp) := by
    simp [evaluate_response, htype]
  have hrec := run_evaluation_result_of_ok r cfg resp _ hagent heval hsetup
  have hres : (run_evaluation r cfg).result.result =
      (if evaluate_substring cfg resp then "PASS" else "FAIL") := by
    rw [hrec]
  refine ⟨?_, ?_, ?_, ?_⟩ <;> rw [hres]
  · by_cases hsub : evaluate_substring cfg resp = true
    · simp only [hsub, if_true, true_iff]
      exact (evaluate_substring_iff cfg resp).1 hsub
    · have hf : evaluate_substring cfg resp = false := by
        simpa using hsub
      simp only [hf, Bool.false_eq_true, if_false]
      constructor
      · intro hcontra
        exact absurd hcontra (by decide)
      · intro hex
        exact absurd ((evaluate_substring_iff cfg resp).2 hex) hsub
  · cases hsub : evaluate_substring cfg resp <;> simp
  · intro hempty
    have hf : evaluate_substring cfg resp = false := by
      cases hsub : evaluate_substring cfg resp
      · rfl
      · exfalso
        obtain ⟨kw, hkw, -⟩ := (evaluate_substring_iff cfg resp).1 hsub
        rw [hempty] at hkw
        simp at hkw
    simp [hf]
  · cases hsub : evaluate_substring cfg resp <;> simp

/-- C5 witness: keywords ["container", "podman"] match the response
"Podman is an open-source container engine" case-insensitively, giving
the verdict "PASS". -/
theorem substring_eval_witness :
    (run_evaluation
      { judge := none, agent := .ok "Podman is an open-source container engine",
        setupCall := callOk, verifyCall := callOk, cleanupCall := callOk }
      { eval_id := "w5", eval_query := "What is Podman?",
        eval_type := "sub-string",
        expected_key_words := some ["container", "podman"] }).result.result =
      "PASS" :=
  (substring_eval_spec
    { judge := none, agent := .ok "Podman is an open-source container engine",
      setupCall := callOk, verifyCall := callOk, cleanupCall := callOk }
    { eval_id := "w5", eval_query := "What is Podman?",
      eval_type := "sub-string",
      expected_key_words := some ["container", "podman"] }
    "Podman is an open-source container engine" rfl rfl
    (by intro s hs; simp at hs)).1.2
    ⟨"container", by decide, by decide⟩

end AgentEval

namespace AgentEval

/-- C6 (amended): for a script evaluation the verdict is "PASS" iff the
verify script's exit code is 0 and any nonzero exit code gives "FAIL";
but a script-executor failure that raises (e.g. a missing script file)
is caught by the strategy and also yields "FAIL" with no error field —
not an errored result. -/
theorem script_eval_spec (r : Runner) (cfg : EvaluationDataConfig)
    (p resp : String)
    (htype : cfg.eval_type = "script")
    (hscript : cfg.eval_verify_script = some p)
    (hagent : r.agent = .ok resp)
    (hsetup : ∀ s, cfg.eval_setup_script = some s →
      isOkE (run_script r.setupCall s true r.kubeconfig) = true) :
    ((run_evaluation r cfg).result.result = "PASS" ↔
      (∃ pr, run_script r.verifyCall p false r.kubeconfig = .ok pr ∧
        pr.returncode = 0)) ∧
    (∀ pr, run_script r.verifyCall p false r.kubeconfig = .ok pr →
      pr.returncode ≠ 0 → (run_evaluation r cfg).result.result = "FAIL") ∧
    (∀ e, run_script r.verifyCall p false r.kubeconfig = .error e →
      (run_evaluation r cfg).result.result = "FAIL" ∧
      (run_evaluation r cfg).result.error = none ∧
      (run_evaluation r cfg).result.result ≠ "ERROR") := by
  cases hrs : run_script r.verifyCall p false r.kubeconfig with
  | ok pr =>
    have heval : evaluate_response r cfg resp =
        .ok (decide (pr.returncode = 0)) := by
      simp [evaluate_response, htype, evaluate_script, hscript, hrs]
    have hrec := run_evaluation_result_of_ok r cfg resp _ hagent heval hsetup
    have hres : (run_evaluation r cfg).result.result =
        (if pr.returncode = 0 then "PASS" else "FAIL") := by
      rw [hrec]
      by_cases hrc : pr.returncode = 0 <;> simp [hrc]
    refine ⟨?_, ?_, ?_⟩
    · rw [hres]
      by_cases hrc : pr.returncode = 0
      · simp only [hrc, if_pos]
        simp only [true_iff]
        exact ⟨pr, rfl, hrc⟩
      · simp only [if_neg hrc]
        constructor
        · intro hcontra
          exact absurd hcontra (by decide)
        · rintro ⟨pr2, hpr2, hrc2⟩
          rw [Except.ok.injEq] at hpr2
          subst hpr2
          exact absurd hrc2 hrc
    · intro pr2 hpr2 hrc2
      rw [Except.ok.injEq] at hpr2
      rw [hres, if_neg (hpr2 ▸ hrc2)]
    · intro e he
      exact absurd he (by simp)
  | error e =>
    have heval : evaluate_response r cfg resp = .ok false := by
      simp [evaluate_response, htype, evaluate_script, hscript, hrs]
    have hrec := run_evaluation_result_of_ok r cfg resp _ hagent heval hsetup
    have hres : (run_evaluation r cfg).result.result = "FAIL" := by
      rw [hrec]
      rfl
    have herr : (run_evaluation r cfg).result.error = none := by
      rw [hrec]
    refine ⟨?_, ?_, ?_⟩
    · rw [hres]
      constructor
      · intro hcontra
        exact absurd hcontra (by decide)
      · rintro ⟨pr2, hpr2, -⟩
        exact absurd hpr2 (by simp)
    · intro pr2 hpr2
      exact absurd hpr2 (by simp)
    · intro e2 he2
      exact ⟨hres, herr, by rw [hres]; decide⟩

/-- C6 counterexample: a script evaluation whose verify script file is
missing (the executor raises `ScriptExecutionError`) produces the
verdict "FAIL", not "ERROR" as the claim states. -/
theorem script_eval_counterexample :
    (run_evaluation
      { judge := none, agent := .ok "done", setupCall := callOk,
        verifyCall := callMissing, cleanupCall := callOk }
      { eval_id := "cx6", eval_query := "q", eval_type := "script",
        eval_verify_script := some "/verify.sh" }).result.result = "FAIL" ∧
    (run_evaluation
      { judge := none, agent := .ok "done", setupCall := callOk,
        verifyCall := callMissing, cleanupCall := callOk }
      { eval_id := "cx6", eval_query := "q", eval_type := "script",
        eval_verify_script := some "/verify.sh" }).result.result ≠ "ERROR" := by
  decide

/-- C6 witness: the amended statement applied to a concrete run whose
verify script exits 0, giving "PASS". -/
theorem script_eval_witness :
    (run_evaluation
      { judge := none, agent := .ok "done", setupCall := callOk,
        verifyCall := callOk, cleanupCall := callOk }
      { eval_id := "w6", eval_query := "q", eval_type := "script",
        eval_verify_script := some "/verify.sh" }).result.result = "PASS" :=
  ((script_eval_spec
    { judge := none, agent := .ok "done", setupCall := callOk,
      verifyCall := callOk, cleanupCall := callOk }
    { eval_id := "w6", eval_query := "q", eval_type := "script",
      eval_verify_script := some "/verify.sh" }
    "/verify.sh" "done" rfl rfl rfl
    (by intro s hs; simp at hs)).1).2 ⟨procOk, rfl, rfl⟩

end AgentEval

namespace AgentEval

/-- C8: the returned result is entirely independent of the cleanup
invocation's outcome — replacing the cleanup call site by any other
changes nothing in the `EvaluationResult` — and whenever the strategy
has produced a PASS/FAIL verdict, that verdict is returned with no
error field, regardless of cleanup failure. -/
theorem cleanup_best_effort_spec (r : Runner) (c : ScriptCall)
    (cfg : EvaluationDataConfig) :
    (run_evaluation { r with cleanupCall := c } cfg).result =
      (run_evaluation r cfg).result ∧
    (∀ resp b, r.agent = .ok resp → evaluate_response r cfg resp = .ok b →
      (∀ s, cfg.eval_setup_script = some s →
        isOkE (run_script r.setupCall s true r.kubeconfig) = true) →
      (run_evaluation r cfg).result.result = (if b then "PASS" else "FAIL") ∧
      (run_evaluation r cfg).result.error = none) := by
  constructor
  · obtain ⟨j, a, sc, vc, cc, kc⟩ := r
    show (run_evaluation ⟨j, a, sc, vc, c, kc⟩ cfg).result =
      (run_evaluation ⟨j, a, sc, vc, cc, kc⟩ cfg).result
    unfold run_evaluation runAfterSetup
    dsimp only
    cases hss : cfg.eval_setup_script with
    | some s =>
      dsimp only
      cases hrs : run_script sc s true kc with
      | error e => rfl
      | ok pr =>
        dsimp only
        cases a with
        | error e2 => rfl
        | ok resp =>
          dsimp only
          have hev : evaluate_response ⟨j, Except.ok resp, sc, vc, c, kc⟩
              cfg resp =
            evaluate_response ⟨j, Except.ok resp, sc, vc, cc, kc⟩ cfg resp := rfl
          rw [hev]
          cases evaluate_response ⟨j, Except.ok resp, sc, vc, cc, kc⟩ cfg resp
            with
          | error e3 => rfl
          | ok b => rfl
    | none =>
      dsimp only
      cases a with
      | error e2 => rfl
      | ok resp =>
        dsimp only
        have hev : evaluate_response ⟨j, Except.ok resp, sc, vc, c, kc⟩
            cfg resp =
          evaluate_response ⟨j, Except.ok resp, sc, vc, cc, kc⟩ cfg resp := rfl
        rw [hev]
        cases evaluate_response ⟨j, Except.ok resp, sc, vc, cc, kc⟩ cfg resp
          with
        | error e3 => rfl
        | ok b => rfl
  · intro resp b hagent heval hsetup
    have hrec := run_evaluation_result_of_ok r cfg resp b hagent heval hsetup
    rw [hrec]
    exact ⟨by cases b <;> rfl, rfl⟩

/-- C8 witness: a concrete PASS verdict is unchanged when the cleanup
call site is replaced by a failing one, and carries no error field. -/
theorem cleanup_best_effort_witness :
    (run_evaluation
      { judge := none, agent := .ok "the signal phrase", setupCall := callOk,
        verifyCall := callOk,
        cleanupCall := callExecFail }
      { eval_id := "w8", eval_query := "q", eval_type := "sub-string",
        expected_key_words := some ["signal"],
        eval_cleanup_script := some "/cleanup.sh" }).result =
      (run_evaluation
        { judge := none, agent := .ok "the signal phrase", setupCall := callOk,
          verifyCall := callOk, cleanupCall := callOk }
        { eval_id := "w8", eval_query := "q", eval_type := "sub-string",
          expected_key_words := some ["signal"],
          eval_cleanup_script := some "/cleanup.sh" }).result ∧
    (run_evaluation
      { judge := none, agent := .ok "the signal phrase", setupCall := callOk,
        verifyCall := callOk, cleanupCall := callOk }
      { eval_id := "w8", eval_query := "q", eval_type := "sub-string",
        expected_key_words := some ["signal"],
        eval_cleanup_script := some "/cleanup.sh" }).result.error = none := by
  have h := cleanup_best_effort_spec
    { judge := none, agent := .ok "the signal phrase", setupCall := callOk,
      verifyCall := callOk, cleanupCall := callOk }
    callExecFail
    { eval_id := "w8", eval_query := "q", eval_type := "sub-string",
      expected_key_words := some ["signal"],
      eval_cleanup_script := some "/cleanup.sh" }
  have h2 := h.2 "the signal phrase" true rfl rfl
    (by intro s hs; simp at hs)
  exact ⟨h.1, h2.2⟩

end AgentEval
